import Mathlib

/-!
# Verification of the salary-dashboard data pipeline

Shallow embedding of the data-preparation pipeline of `app.py`
(load → validate → clean → filter → sort → bar chart / distribution
simulation) together with proofs about the claims of the specification.

Salaries are modelled as rationals (`ℚ`); a missing value (pandas `NaN`,
produced by `pd.to_numeric(errors="coerce")`) is modelled as `none`.
-/

/-- One row of the salary table after the cleaning step of the app
(`df.dropna(subset=["Department"]); df["Department"] = df["Department"].astype(str)`,
app.py lines 145-146): the department is a string, the three salary
columns are numeric-or-missing. -/
structure SalaryRow where
  department : String
  average_salary : Option ℚ
  min_salary : Option ℚ
  max_salary : Option ℚ
deriving DecidableEq, Repr, Inhabited

/-! ## Distribution simulator (`simulate_distributions`, app.py lines 93-108) -/

/-- Modelled from the spec: `np.random.Generator.triangular` draws from a fixed,
fully deterministic pseudo-random algorithm (PCG64 stream plus the triangular
inverse-CDF transform), a pure function of the seed, the position in the draw
stream, and the three distribution parameters.  The bit-exact values of the
library algorithm are irrelevant to every claim (which concern determinism,
row counts, ordering and error behaviour), so the draw is modelled by an
arbitrary fixed computable function of the same arguments. -/
def triangularDraw (seed ctr : Nat) (a b c : ℚ) : ℚ :=
  match (seed + ctr) % 3 with
  | 0 => a
  | 1 => b
  | _ => c

/-- The long-form sample table returned by `simulate_distributions`:
its column labels and its rows (one `(Department, Salary)` pair per sample). -/
structure SimResult where
  columns : List String
  rows : List (String × ℚ)
deriving DecidableEq, Repr

/-- Row loop of `simulate_distributions` (app.py lines 96-105).  `ctr` is the
position reached in the generator's draw stream (the single `rng` object is
reused across rows, so a sampled row advances the stream by
`samples_per_dept`).  A row with a missing value is skipped (the `isnan`
check; a non-convertible cell likewise `continue`s via the `try/except`);
a row with `Min ≥ Max` is skipped; otherwise `rng.triangular(a, b, c)` is
called, which — as `numpy` documents and implements — raises `ValueError`
when `left > mode` or `mode > right`. -/
def simulateAux (seed n : Nat) : List SalaryRow → Nat → Except String (List (String × ℚ))
  | [], _ => .ok []
  | r :: rs, ctr =>
    match r.min_salary, r.average_salary, r.max_salary with
    | some a, some b, some c =>
      if a ≥ c then
        simulateAux seed n rs ctr
      else if a > b then
        .error "ValueError: left > mode"
      else if b > c then
        .error "ValueError: mode > right"
      else
        match simulateAux seed n rs (ctr + n) with
        | .error e => .error e
        | .ok rest =>
          .ok (((List.range n).map
            (fun i => (r.department, triangularDraw seed (ctr + i) a b c))) ++ rest)
    | _, _, _ => simulateAux seed n rs ctr

/-- `simulate_distributions(df, samples_per_dept, seed)` (app.py lines 93-108).
The first argument models the process-wide `numpy` global random state: the
function takes it only to make explicit that it never reads it — line 94
constructs a fresh generator `np.random.default_rng(seed)` from the seed
alone.  If every row is skipped the code returns
`pd.DataFrame(columns=["Department", "Salary"])`; otherwise the per-row
frames (each built with the keys `"Department"` and `"Salary"`) are
concatenated. -/
def simulate_distributions (npGlobalRandomState : Nat) (df : List SalaryRow)
    (samples_per_dept : Nat) (seed : Nat) : Except String SimResult :=
  let _ := npGlobalRandomState
  match simulateAux seed samples_per_dept df 0 with
  | .error e => .error e
  | .ok samples =>
    if samples.isEmpty then
      .ok ⟨["Department", "Salary"], []⟩
    else
      .ok ⟨["Department", "Salary"], samples⟩

/-- A row qualifies for simulation when `Min`, `Average` and `Max` are all
present and `Min < Max` (the complement of the two `continue` guards of
app.py lines 97-102). -/
def qualifies (r : SalaryRow) : Bool :=
  match r.min_salary, r.average_salary, r.max_salary with
  | some a, some _, some c => decide (a < c)
  | _, _, _ => false

/-! ## Chart builder (`make_bar_fig`, app.py lines 46-91) -/

/-- `(df["Average_Salary"] - df["Min_Salary"]).fillna(0)` per row (app.py
line 49): pandas subtraction of two possibly-`NaN` floats is `NaN` as soon
as one operand is `NaN`, and `fillna(0)` turns `NaN` into `0`.  Nothing
clamps a negative difference. -/
def leftWhisker (r : SalaryRow) : ℚ :=
  match r.average_salary, r.min_salary with
  | some a, some m => a - m
  | _, _ => 0

/-- `(df["Max_Salary"] - df["Average_Salary"]).fillna(0)` per row (app.py
line 50). -/
def rightWhisker (r : SalaryRow) : ℚ :=
  match r.max_salary, r.average_salary with
  | some mx, some a => mx - a
  | _, _ => 0

/-- The data of the figure built by `make_bar_fig`: bar lengths, labels,
the asymmetric error-bar arrays (`error_x.arrayminus` / `error_x.array`),
the hover `customdata`, and the layout height `60 * max(4, len(df))`. -/
structure BarFig where
  x : List (Option ℚ)
  y : List String
  err_left : List ℚ
  err_right : List ℚ
  customdata : List (ℚ × ℚ)
  show_error : Bool
  title : String
  height : Nat
deriving DecidableEq, Repr

/-- `make_bar_fig(df, palette, show_error, title)` (app.py lines 46-91),
restricted to the data actually computed from the table. -/
def make_bar_fig (df : List SalaryRow) (show_error : Bool) (title : String) :
    BarFig :=
  { x := df.map (·.average_salary)
    y := df.map (·.department)
    err_left := df.map leftWhisker
    err_right := df.map rightWhisker
    customdata := df.map (fun r => (r.min_salary.getD 0, r.max_salary.getD 0))
    show_error := show_error
    title := title
    height := 60 * max 4 df.length }

/-- The spec's formula for the left error extent, for comparison with the
code: `max(0, Average − Min)`, and `0` when `Min` (or `Average`) is
missing. -/
def specLeftExtent (r : SalaryRow) : ℚ :=
  match r.average_salary, r.min_salary with
  | some a, some m => max 0 (a - m)
  | _, _ => 0

/-- The spec's formula for the right error extent: `max(0, Max − Average)`,
and `0` when `Max` (or `Average`) is missing. -/
def specRightExtent (r : SalaryRow) : ℚ :=
  match r.max_salary, r.average_salary with
  | some mx, some a => max 0 (mx - a)
  | _, _ => 0

/-! ## Department filter (app.py lines 148-149) -/

/-- `if selected: df = df[df["Department"].isin(selected)]` — a Python empty
list is falsy, so an empty selection leaves the table untouched. -/
def filter_selected (df : List SalaryRow) (selected : List String) :
    List SalaryRow :=
  if selected.isEmpty then df
  else df.filter (fun r => selected.contains r.department)

/-! ## Data loader (`load_data`, app.py lines 23-44) -/

/-- The embedded default dataset (app.py lines 23-33), verbatim. -/
def EXAMPLE_CSV : String :=
  "Department,Average_Salary,Min_Salary,Max_Salary
IT,28560.182889,10544.19,115178.51
Finance,28055.533689,8987.86,101294.41
Logistics/Warehousing,27574.698600,9027.53,153451.58
Store Operations,27404.359873,8848.62,177873.61
Fresh Produce,26915.946969,8998.42,110475.60
Marketing,26796.816800,9736.23,65923.63
HR,26539.921733,8823.46,58951.29
Meat/Fish & Bakery,26535.722133,8867.88,116453.67
Customer Service,26244.393800,9449.99,50949.01
"

/-- Split a character list at every occurrence of `sep` (the list analogue
of splitting a string on a separator; separators are not kept). -/
def splitOnChar (sep : Char) : List Char → List (List Char)
  | [] => [[]]
  | c :: cs =>
    if c = sep then [] :: splitOnChar sep cs
    else
      match splitOnChar sep cs with
      | [] => [[c]]
      | g :: gs => (c :: g) :: gs

/-- Python's `str.strip()`: drop surrounding whitespace. -/
def trimChars (cs : List Char) : List Char :=
  ((cs.dropWhile (·.isWhitespace)).reverse.dropWhile (·.isWhitespace)).reverse

/-- Value of a digit string, most significant digit first. -/
def digitsToNat (cs : List Char) : Nat :=
  cs.foldl (fun n c => 10 * n + (c.toNat - 48)) 0

/-- `true` iff every character is a decimal digit. -/
def allDigits (cs : List Char) : Bool := cs.all (·.isDigit)

/-- An optionally-pointed decimal numeral with the given sign: `dd`,
`dd.dd`, `dd.` or `.dd` (at least one digit overall); the value is
`sign · digits / 10 ^ (number of fractional digits)`. -/
def parseSigned (sgn : Int) (cs : List Char) : Option ℚ :=
  match splitOnChar '.' cs with
  | [i] =>
    if i.isEmpty ∨ ¬ allDigits i then none
    else some (mkRat (sgn * digitsToNat i) 1)
  | [i, f] =>
    if (i.isEmpty ∧ f.isEmpty) ∨ ¬ allDigits i ∨ ¬ allDigits f then none
    else some (mkRat (sgn * digitsToNat (i ++ f)) (10 ^ f.length))
  | _ => none

/-- Modelled from the spec: `pd.to_numeric(·, errors="coerce")` on a cell —
"Numeric columns accept standard decimal notation; non-parseable cells
become missing values".  Accepts an optionally signed decimal numeral
surrounded by whitespace; anything else coerces to missing. -/
def to_numeric (s : String) : Option ℚ :=
  match trimChars s.data with
  | '-' :: rest => parseSigned (-1) rest
  | '+' :: rest => parseSigned 1 rest
  | cs => parseSigned 1 cs

/-- A cell of a loaded table: a raw string, or a numeric column's
float-or-missing value. -/
inductive Cell
  | str (s : String)
  | num (v : Option ℚ)
deriving DecidableEq, Repr

/-- A loaded table: column labels plus rows of cells. -/
structure DataFrame where
  cols : List String
  rows : List (List Cell)
deriving DecidableEq, Repr

/-- The salary columns coerced to numeric by `load_data` (app.py line 41). -/
def NUMERIC_COLS : List String := ["Average_Salary", "Min_Salary", "Max_Salary"]

/-- CSV text split into non-blank lines of comma-separated cells
(`pd.read_csv` skips blank lines by default). -/
def parseCSVLines (text : String) : List (List (List Char)) :=
  ((splitOnChar '\n' text.data).filter (· ≠ [])).map (splitOnChar ',')

/-- `load_data(uploaded_file)` (app.py lines 35-44): read the uploaded CSV
text, or the embedded default when none is supplied; strip whitespace from
the column names; coerce each of the three salary columns that is present
to numeric, bad cells becoming missing. -/
def load_data (uploaded_file : Option String) : DataFrame :=
  let text := match uploaded_file with
    | none => EXAMPLE_CSV
    | some t => t
  match parseCSVLines text with
  | [] => ⟨[], []⟩
  | hdr :: recs =>
    let cols := hdr.map (fun cs => String.mk (trimChars cs))
    let rows := recs.map (fun cells =>
      (List.range cols.length).map (fun i =>
        let raw := String.mk (cells.getD i [])
        if NUMERIC_COLS.contains (cols.getD i "") then Cell.num (to_numeric raw)
        else Cell.str raw))
    ⟨cols, rows⟩

/-! ## Schema validation (app.py lines 140-143) -/

/-- `required_cols = {"Department", "Average_Salary", "Min_Salary",
"Max_Salary"}` (app.py line 140). -/
def required_cols : List String :=
  ["Department", "Average_Salary", "Min_Salary", "Max_Salary"]

/-- `required_cols.issubset(set(df.columns))` (app.py line 141): the render
proceeds exactly when this holds; otherwise `st.error(...)`/`st.stop()`
halt the cycle. -/
def schema_ok (df : DataFrame) : Bool :=
  required_cols.all (fun c => df.cols.contains c)

/-- The header cells of a CSV text, before any trimming. -/
def headerCells (text : String) : List (List Char) :=
  match parseCSVLines text with
  | [] => []
  | h :: _ => h

set_option maxRecDepth 16000

/-! ## Sorting (app.py lines 151-156)

`df.sort_values(column, ascending=…)` delegates to pandas `nargsort` with
the default `kind="quicksort"` and `na_position="last"`:

* missing keys are set aside and appended at the end in original order;
* for a descending sort the non-missing block is reversed before and the
  indexer reversed after the ascending argsort;
* the ascending argsort itself is numpy's introsort (`npy_aquicksort`):
  median-of-three quicksort down to partitions of at most
  `SMALL_QUICKSORT = 15` elements, finished by insertion sort, with a
  heapsort fallback once the depth budget `2·⌊log₂ n⌋` is exhausted.

Everything below is a direct transcription of that algorithm; an array of
at most 16 indices goes straight to the insertion sort.
-/

section NpSort

variable {α : Type} [LinearOrder α] [Inhabited α]

/-- Key lookup for an argsort: the value at index `i`. -/
def vAt (vals : List α) (i : Nat) : α := vals.getD i default

/-- Swap the entries at positions `i` and `j`. -/
def listSwap (l : List Nat) (i j : Nat) : List Nat :=
  let a := l.getD i 0
  let b := l.getD j 0
  (l.set i b).set j a

/-- Insert index `x` into the sorted index list `l`: `x` goes after every
index whose key is not greater than `x`'s (the strict comparison
`v[*pk] > vp` of the C insertion sort keeps equal keys in place). -/
def npInsert (v : Nat → α) (x : Nat) : List Nat → List Nat
  | [] => [x]
  | y :: ys => if v x < v y then x :: y :: ys else y :: npInsert v x ys

/-- The insertion sort of `npy_aquicksort` on an index list. -/
def npInsSort (v : Nat → α) (l : List Nat) : List Nat :=
  l.foldl (fun acc x => npInsert v x acc) []

/-- Insertion-sort the segment `[pl, pr]` of the index array in place. -/
def insertionSeg (v : Nat → α) (ts : List Nat) (pl pr : Nat) : List Nat :=
  ts.take pl ++ npInsSort v ((ts.drop pl).take (pr + 1 - pl)) ++ ts.drop (pr + 1)

/-- `do ++pi; while (v[*pi] < vp)` of the partition scan. -/
def advancePi (v : Nat → α) (ts : List Nat) (vp : α) : Nat → Nat → Nat
  | 0, pi => pi + 1
  | fuel + 1, pi =>
    if v (ts.getD (pi + 1) 0) < vp then advancePi v ts vp fuel (pi + 1)
    else pi + 1

/-- `do --pj; while (vp < v[*pj])` of the partition scan. -/
def retreatPj (v : Nat → α) (ts : List Nat) (vp : α) : Nat → Nat → Nat
  | 0, pj => pj - 1
  | fuel + 1, pj =>
    if vp < v (ts.getD (pj - 1) 0) then retreatPj v ts vp fuel (pj - 1)
    else pj - 1

/-- The Sedgewick partition loop: advance `pi`, retreat `pj`, stop when the
scans cross, otherwise swap and continue.  Returns the array and the final
`pi`. -/
def partitionScan (v : Nat → α) (vp : α) :
    Nat → List Nat → Nat → Nat → List Nat × Nat
  | 0, ts, pi, _ => (ts, pi)
  | fuel + 1, ts, pi, pj =>
    let pi' := advancePi v ts vp (ts.length + 2) pi
    let pj' := retreatPj v ts vp (ts.length + 2) pj
    if pj' ≤ pi' then (ts, pi')
    else partitionScan v vp fuel (listSwap ts pi' pj') pi' pj'

/-- One sift of `npy_aheapsort` (`a` is the 1-based segment, `tmp` the
index being placed, `n` the heap size); returns the array and the final
hole position `i`. -/
def siftLoop (v : Nat → α) (tmp : Nat) (n : Nat) :
    Nat → List Nat → Nat → Nat → List Nat × Nat
  | 0, a, i, _ => (a, i)
  | fuel + 1, a, i, j =>
    if j ≤ n then
      let j' := if j < n ∧ v (a.getD (j - 1) 0) < v (a.getD j 0) then j + 1 else j
      if v tmp < v (a.getD (j' - 1) 0) then
        siftLoop v tmp n fuel (a.set (i - 1) (a.getD (j' - 1) 0)) j' (j' + j')
      else (a, i)
    else (a, i)

/-- Heap construction: `for (l = n >> 1; l > 0; --l)`. -/
def heapifyLoop (v : Nat → α) (n : Nat) : Nat → List Nat → Nat → List Nat
  | 0, a, _ => a
  | fuel + 1, a, l =>
    if 0 < l then
      let tmp := a.getD (l - 1) 0
      let s := siftLoop v tmp n (n + 2) a l (2 * l)
      heapifyLoop v n fuel (s.1.set (s.2 - 1) tmp) (l - 1)
    else a

/-- Heap extraction: `for (; n > 1;)`. -/
def heapExtractLoop (v : Nat → α) : Nat → List Nat → Nat → List Nat
  | 0, a, _ => a
  | fuel + 1, a, n =>
    if 1 < n then
      let tmp := a.getD (n - 1) 0
      let a1 := a.set (n - 1) (a.getD 0 0)
      let m := n - 1
      let s := siftLoop v tmp m (m + 2) a1 1 2
      heapExtractLoop v fuel (s.1.set (s.2 - 1) tmp) m
    else a

/-- `npy_aheapsort` on the segment `[pl, pr]` of the index array. -/
def aheapsortSeg (v : Nat → α) (ts : List Nat) (pl pr : Nat) : List Nat :=
  let seg := (ts.drop pl).take (pr + 1 - pl)
  let n := seg.length
  let a := heapExtractLoop v (n + 2) (heapifyLoop v n (n + 2) seg (n / 2)) n
  ts.take pl ++ a ++ ts.drop (pr + 1)

/-- The main loop of `npy_aquicksort`: an explicit work stack of segments;
a segment of more than `SMALL_QUICKSORT = 15` elements is partitioned
around the median of three (the larger half is pushed), a small segment is
insertion-sorted, and once `depth` runs out a segment is heapsorted.  The
fuel only bounds the recursion; it is chosen large enough never to run
out. -/
def outerLoop (v : Nat → α) :
    Nat → List Nat → List (Nat × Nat) → Nat → Nat → Int → List Nat
  | 0, ts, _, _, _, _ => ts
  | fuel + 1, ts, stack, pl, pr, depth =>
    if 15 < pr - pl then
      if depth < 0 then
        let ts' := aheapsortSeg v ts pl pr
        match stack with
        | [] => ts'
        | (l, r) :: rest => outerLoop v fuel ts' rest l r (depth - 1)
      else
        let pm := pl + (pr - pl) / 2
        let ts1 := if v (ts.getD pm 0) < v (ts.getD pl 0) then listSwap ts pm pl else ts
        let ts2 := if v (ts1.getD pr 0) < v (ts1.getD pm 0) then listSwap ts1 pr pm else ts1
        let ts3 := if v (ts2.getD pm 0) < v (ts2.getD pl 0) then listSwap ts2 pm pl else ts2
        let vp := v (ts3.getD pm 0)
        let ts4 := listSwap ts3 pm (pr - 1)
        let s := partitionScan v vp (pr - pl + 2) ts4 pl (pr - 1)
        let pi := s.2
        let ts6 := listSwap s.1 pi (pr - 1)
        if pi - pl < pr - pi then
          outerLoop v fuel ts6 ((pi + 1, pr) :: stack) pl (pi - 1) (depth - 1)
        else
          outerLoop v fuel ts6 ((pl, pi - 1) :: stack) (pi + 1) pr (depth - 1)
    else
      let ts' := insertionSeg v ts pl pr
      match stack with
      | [] => ts'
      | (l, r) :: rest => outerLoop v fuel ts' rest l r depth

/-- `numpy` argsort with `kind="quicksort"`: run `npy_aquicksort` on the
identity index array, with depth budget `2·⌊log₂ n⌋`. -/
def npArgsortQuick (vals : List α) : List Nat :=
  let n := vals.length
  if n = 0 then []
  else outerLoop (vAt vals) (4 * n + 8) (List.range n) [] 0 (n - 1)
    (2 * (Nat.log2 n : Int))

/-- The positions of the non-missing keys (`idx[~mask]` in pandas
`nargsort`), in original order. -/
def nonNanIdxOf (keys : List (Option α)) : List Nat :=
  (List.range keys.length).filter (fun i => (keys.getD i none).isSome)

/-- The positions of the missing keys (`np.nonzero(mask)[0]`), in original
order. -/
def nanIdxOf (keys : List (Option α)) : List Nat :=
  (List.range keys.length).filter (fun i => (keys.getD i none).isNone)

/-- The non-missing positions in the order handed to the argsort: reversed
for a descending sort (`non_nan_idx = non_nan_idx[::-1]`). -/
def nniOf (keys : List (Option α)) (ascending : Bool) : List Nat :=
  if ascending then nonNanIdxOf keys else (nonNanIdxOf keys).reverse

/-- The non-missing key values in the order handed to the argsort
(`non_nans`, reversed for a descending sort). -/
def valsOf (keys : List (Option α)) (ascending : Bool) : List α :=
  (nniOf keys ascending).map (fun i => (keys.getD i none).getD default)

/-- pandas `nargsort(items, kind="quicksort", ascending, na_position="last")`:
missing keys are split off and appended last in original order; a
descending sort reverses the non-missing block, argsorts ascending, and
reverses the resulting indexer (`indexer = non_nan_idx[non_nans.argsort()]`,
then `indexer = indexer[::-1]`, then `np.concatenate([indexer, nan_idx])`). -/
def nargsort (keys : List (Option α)) (ascending : Bool) : List Nat :=
  (let indexer := (npArgsortQuick (valsOf keys ascending)).map
      (fun k => (nniOf keys ascending).getD k 0)
   if ascending then indexer else indexer.reverse) ++ nanIdxOf keys

/-- The strict order in which pandas `nargsort` with `na_position="last"`
arranges the row positions: by key (ascending or descending), missing keys
last, and — when stable — ties in original position order. -/
def pandasLt (keys : List (Option α)) (asc : Bool) (i j : Nat) : Prop :=
  match keys.getD i none, keys.getD j none with
  | some a, some b => (if asc then a < b else b < a) ∨ (a = b ∧ i < j)
  | some _, none => True
  | none, some _ => False
  | none, none => i < j

/-- The strict order maintained by the insertion sort on indices: by key
value, ties by index. -/
def idxLt (v : Nat → α) (i j : Nat) : Prop :=
  v i < v j ∨ (v i = v j ∧ i < j)

end NpSort

/-- The three sort options of the radio control (app.py lines 125 and
151-156). -/
inductive SortChoice
  | avgDesc
  | avgAsc
  | deptAsc
deriving DecidableEq, Repr

/-- The row permutation (pandas indexer) computed by the `sort_values`
dispatch (app.py lines 151-156) for each sort option. -/
def sortIndexer (df : List SalaryRow) : SortChoice → List Nat
  | .avgDesc => nargsort (df.map (·.average_salary)) false
  | .avgAsc => nargsort (df.map (·.average_salary)) true
  | .deptAsc => nargsort (df.map (fun r => some r.department)) true

/-- Take the rows of `df` in indexer order (`df.take(indexer)` followed by
`reset_index(drop=True)`). -/
def applyIndexer (df : List SalaryRow) (idxs : List Nat) : List SalaryRow :=
  idxs.map (fun i => df.getD i default)

/-- `df.sort_values(…).reset_index(drop=True)` for the chosen sort key. -/
def sortTable (df : List SalaryRow) (c : SortChoice) : List SalaryRow :=
  applyIndexer df (sortIndexer df c)

/-- Original row positions `i` and `j` hold equal sort-key values for the
chosen sort option. -/
def keyEqAt (df : List SalaryRow) : SortChoice → Nat → Nat → Prop
  | .avgDesc, i, j =>
    (df.getD i default).average_salary = (df.getD j default).average_salary
  | .avgAsc, i, j =>
    (df.getD i default).average_salary = (df.getD j default).average_salary
  | .deptAsc, i, j =>
    (df.getD i default).department = (df.getD j default).department

instance (df : List SalaryRow) (c : SortChoice) (i j : Nat) :
    Decidable (keyEqAt df c i j) := by
  unfold keyEqAt; cases c <;> infer_instance

/-- A table of 17 rows with identical `Average_Salary` keys and pairwise
distinct departments. -/
def tbl17 : List SalaryRow :=
  (List.range 17).map (fun i => ⟨"D" ++ toString i, some 1, none, none⟩)

/-- A one-row table violating `Min ≤ Average`: Average 5, Min 10, Max 20. -/
def tblC1 : List SalaryRow := [⟨"Ops", some 5, some 10, some 20⟩]

/-- A one-row table with Min 0 < Max 10 but Average 20 outside `[Min, Max]`. -/
def tblC2 : List SalaryRow := [⟨"BadRow", some 20, some 0, some 10⟩]

/-- A table with no row qualifying for simulation: missing values in one
row, `Min ≥ Max` in the other. -/
def tblC5 : List SalaryRow :=
  [⟨"A", none, none, none⟩, ⟨"B", some 5, some 10, some 5⟩]

/-- A table with one qualifying row (`"A"`) and one skipped row (`"B"`). -/
def tblC10 : List SalaryRow :=
  [⟨"A", some 5, some 0, some 10⟩, ⟨"B", none, none, none⟩]

/-- A small table with a tied pair of averages, for exercising stability. -/
def tblW3 : List SalaryRow :=
  [⟨"X", some 1, none, none⟩, ⟨"Y", some 1, none, none⟩, ⟨"Z", some 0, none, none⟩]

/-- A small table with a tied pair of averages, for exercising idempotence. -/
def tblW7 : List SalaryRow :=
  [⟨"P", some 2, none, none⟩, ⟨"Q", some 2, none, none⟩, ⟨"R", some 5, none, none⟩]

/-- The default dataset exactly as listed in §6 of the specification. -/
def specDefaultTable : DataFrame :=
  ⟨["Department", "Average_Salary", "Min_Salary", "Max_Salary"],
  [[Cell.str "IT", Cell.num (some (28560.182889 : ℚ)),
    Cell.num (some (10544.19 : ℚ)), Cell.num (some (115178.51 : ℚ))],
   [Cell.str "Finance", Cell.num (some (28055.533689 : ℚ)),
    Cell.num (some (8987.86 : ℚ)), Cell.num (some (101294.41 : ℚ))],
   [Cell.str "Logistics/Warehousing", Cell.num (some (27574.698600 : ℚ)),
    Cell.num (some (9027.53 : ℚ)), Cell.num (some (153451.58 : ℚ))],
   [Cell.str "Store Operations", Cell.num (some (27404.359873 : ℚ)),
    Cell.num (some (8848.62 : ℚ)), Cell.num (some (177873.61 : ℚ))],
   [Cell.str "Fresh Produce", Cell.num (some (26915.946969 : ℚ)),
    Cell.num (some (8998.42 : ℚ)), Cell.num (some (110475.60 : ℚ))],
   [Cell.str "Marketing", Cell.num (some (26796.816800 : ℚ)),
    Cell.num (some (9736.23 : ℚ)), Cell.num (some (65923.63 : ℚ))],
   [Cell.str "HR", Cell.num (some (26539.921733 : ℚ)),
    Cell.num (some (8823.46 : ℚ)), Cell.num (some (58951.29 : ℚ))],
   [Cell.str "Meat/Fish & Bakery", Cell.num (some (26535.722133 : ℚ)),
    Cell.num (some (8867.88 : ℚ)), Cell.num (some (116453.67 : ℚ))],
   [Cell.str "Customer Service", Cell.num (some (26244.393800 : ℚ)),
    Cell.num (some (9449.99 : ℚ)), Cell.num (some (50949.01 : ℚ))]]⟩

/-! ## Helper lemmas about the simulator -/

theorem simulateAux_all_skip (seed n : Nat) (df : List SalaryRow)
    (h : ∀ r ∈ df, qualifies r = false) :
    ∀ ctr, simulateAux seed n df ctr = .ok [] := by
  induction df with
  | nil => intro ctr; rfl
  | cons r rs ih =>
    intro ctr
    have hr : qualifies r = false := h r (by simp)
    have hrs : ∀ x ∈ rs, qualifies x = false := fun x hx => h x (by simp [hx])
    obtain ⟨d, av, mn, mx⟩ := r
    cases mn with
    | none => simpa only [simulateAux] using ih hrs ctr
    | some a =>
      cases av with
      | none => simpa only [simulateAux] using ih hrs ctr
      | some b =>
        cases mx with
        | none => simpa only [simulateAux] using ih hrs ctr
        | some c =>
          have hac : a ≥ c := by
            have : ¬ a < c := by simpa [qualifies] using hr
            exact not_lt.mp this
          simp only [simulateAux, if_pos hac]
          exact ih hrs ctr

theorem simulateAux_layout (seed n : Nat) (df : List SalaryRow) :
    ∀ (ctr : Nat) (out : List (String × ℚ)),
      simulateAux seed n df ctr = .ok out →
      out.length = n * (df.filter qualifies).length ∧
      out.map Prod.fst =
        (df.filter qualifies).flatMap (fun r => List.replicate n r.department) := by
  induction df with
  | nil =>
    intro ctr out h
    simp only [simulateAux, Except.ok.injEq] at h
    subst h
    simp
  | cons r rs ih =>
    intro ctr out h
    obtain ⟨d, av, mn, mx⟩ := r
    cases mn with
    | none =>
      simp only [simulateAux] at h
      simpa [qualifies] using ih ctr out h
    | some a =>
      cases av with
      | none =>
        simp only [simulateAux] at h
        simpa [qualifies] using ih ctr out h
      | some b =>
        cases mx with
        | none =>
          simp only [simulateAux] at h
          simpa [qualifies] using ih ctr out h
        | some c =>
          simp only [simulateAux] at h
          by_cases hac : a ≥ c
          · rw [if_pos hac] at h
            have hq : qualifies (⟨d, some b, some a, some c⟩ : SalaryRow) = false := by
              simp [qualifies]
              exact hac
            simpa [hq] using ih ctr out h
          · rw [if_neg hac] at h
            have hab : ¬ a > b := by
              intro hgt
              rw [if_pos hgt] at h
              cases h
            rw [if_neg hab] at h
            have hbc : ¬ b > c := by
              intro hgt
              rw [if_pos hgt] at h
              cases h
            rw [if_neg hbc] at h
            have hq : qualifies (⟨d, some b, some a, some c⟩ : SalaryRow) = true := by
              simp [qualifies]
              exact not_le.mp hac
            cases hrec : simulateAux seed n rs (ctr + n) with
            | error e => rw [hrec] at h; cases h
            | ok rest =>
              rw [hrec] at h
              simp only [Except.ok.injEq] at h
              subst h
              obtain ⟨ihlen, ihmap⟩ := ih (ctr + n) rest hrec
              constructor
              · simp [hq, ihlen, Nat.mul_add, Nat.mul_one, Nat.add_comm]
              · simp [hq, List.map_map, ihmap, Function.comp_def,
                  List.map_const', List.length_range]

/-! ## Claim theorems -/

/-- C2.  The specification says a row violating `Min ≤ Average ≤ Max` is
silently skipped by the simulator, so that `simulate` never fails.  The
code only guards against missing values and `Min ≥ Max` (app.py line 101):
a row whose `Average` lies outside `[Min, Max]` reaches
`rng.triangular(a, b, c)` (line 103), which raises
`ValueError: mode > right` and aborts the whole simulation. -/
theorem simulate_valueerror_on_invariant_violation :
    simulate_distributions 0 tblC2 300 42 =
      .error "ValueError: mode > right" := rfl

/-- C4.  `simulate_distributions` is deterministic: it constructs its
generator from the seed alone (`np.random.default_rng(seed)`, app.py line
94) and never reads the process-wide random state, so two invocations with
identical `(table, samplesPerDept, seed)` — under arbitrary, possibly
different, ambient global states — return identical sample tables. -/
theorem simulate_deterministic (g₁ g₂ : Nat) (df : List SalaryRow)
    (n seed : Nat) :
    simulate_distributions g₁ df n seed = simulate_distributions g₂ df n seed :=
  rfl

/-- C5.  When no row qualifies for simulation the simulator returns an
explicit empty table with exactly the two named columns `Department` and
`Salary` and zero rows (app.py lines 106-107), never a null result. -/
theorem simulate_zero_qualifying (g : Nat) (df : List SalaryRow) (n seed : Nat)
    (h : ∀ r ∈ df, qualifies r = false) :
    simulate_distributions g df n seed = .ok ⟨["Department", "Salary"], []⟩ := by
  unfold simulate_distributions
  rw [simulateAux_all_skip seed n df h 0]
  rfl

theorem simulate_zero_qualifying_witness :
    (∀ r ∈ tblC5, qualifies r = false) ∧
    simulate_distributions 0 tblC5 300 42 = .ok ⟨["Department", "Salary"], []⟩ :=
  ⟨by decide, simulate_zero_qualifying 0 tblC5 300 42 (by decide)⟩

/-- C6.  Filtering with an empty department selection is the identity:
`if selected:` is false for an empty Python list, so the table passes
through unchanged (app.py lines 148-149). -/
theorem filter_empty_selection (df : List SalaryRow) :
    filter_selected df [] = df := rfl

/-- C10.  Whenever the simulation succeeds, the sample table has exactly
`samplesPerDept × (number of qualifying rows)` rows, and the samples of
each qualifying department form one contiguous block of `samplesPerDept`
rows, in the input row order of the table. -/
theorem simulate_layout (g : Nat) (df : List SalaryRow) (n seed : Nat)
    (res : SimResult) (h : simulate_distributions g df n seed = .ok res) :
    res.columns = ["Department", "Salary"] ∧
    res.rows.length = n * (df.filter qualifies).length ∧
    res.rows.map Prod.fst =
      (df.filter qualifies).flatMap (fun r => List.replicate n r.department) := by
  cases hrec : simulateAux seed n df 0 with
  | error e =>
    rw [show simulate_distributions g df n seed =
        (match simulateAux seed n df 0 with
         | .error e => .error e
         | .ok samples =>
           if samples.isEmpty then
             .ok ⟨["Department", "Salary"], ([] : List (String × ℚ))⟩
           else .ok ⟨["Department", "Salary"], samples⟩) from rfl, hrec] at h
    cases h
  | ok samples =>
    rw [show simulate_distributions g df n seed =
        (match simulateAux seed n df 0 with
         | .error e => .error e
         | .ok samples =>
           if samples.isEmpty then
             .ok ⟨["Department", "Salary"], ([] : List (String × ℚ))⟩
           else .ok ⟨["Department", "Salary"], samples⟩) from rfl, hrec] at h
    dsimp only at h
    obtain ⟨slen, smap⟩ := simulateAux_layout seed n df 0 samples hrec
    by_cases hs : samples.isEmpty
    · rw [if_pos hs] at h
      have hnil : samples = [] := List.isEmpty_iff.mp hs
      subst hnil
      cases h
      exact ⟨rfl, slen, smap⟩
    · rw [if_neg hs] at h
      cases h
      exact ⟨rfl, slen, smap⟩

theorem simulate_layout_witness :
    simulate_distributions 0 tblC10 2 3 =
      .ok ⟨["Department", "Salary"], [("A", (0 : ℚ)), ("A", 5)]⟩ ∧
    [("A", (0 : ℚ)), ("A", 5)].length = 2 * (tblC10.filter qualifies).length ∧
    [("A", (0 : ℚ)), ("A", 5)].map Prod.fst =
      (tblC10.filter qualifies).flatMap (fun r => List.replicate 2 r.department) := by
  have h : simulate_distributions 0 tblC10 2 3 =
      .ok ⟨["Department", "Salary"], [("A", (0 : ℚ)), ("A", 5)]⟩ := rfl
  exact ⟨h, (simulate_layout 0 tblC10 2 3 _ h).2.1,
    (simulate_layout 0 tblC10 2 3 _ h).2.2⟩

/-- C1 (counterexample).  For the row (Average 5, Min 10, Max 20) the
computed left error extent is `5 − 10 = −5`, a negative value: the code
(app.py line 49) does not clamp to `max(0, Average − Min)` as the claim
states. -/
theorem make_bar_fig_clamp_counterexample :
    (make_bar_fig tblC1 true "Average Salary by Department").err_left =
      [(-5 : ℚ)] ∧
    tblC1.map specLeftExtent = [(0 : ℚ)] ∧
    ¬ (make_bar_fig tblC1 true "Average Salary by Department").err_left =
        tblC1.map specLeftExtent := by
  have h1 : (make_bar_fig tblC1 true "Average Salary by Department").err_left =
      [(-5 : ℚ)] := by
    simp only [make_bar_fig, tblC1, List.map_cons, List.map_nil]
    norm_num [leftWhisker]
  have h2 : tblC1.map specLeftExtent = [(0 : ℚ)] := by
    simp only [tblC1, List.map_cons, List.map_nil, specLeftExtent]
    rw [max_eq_left (by norm_num : ((5 : ℚ) - 10) ≤ 0)]
  refine ⟨h1, h2, ?_⟩
  rw [h1, h2]
  intro hc
  simp only [List.cons.injEq] at hc
  norm_num at hc

/-- C1 (amended).  The error-bar arrays of the bar chart are exactly the
per-row values `Average − Min` and `Max − Average` with a missing operand
giving `0` (app.py lines 49-50); on the side where the invariant direction
holds (`Min ≤ Average`, resp. `Average ≤ Max`) this coincides with the
spec's clamped formula `max(0, ·)` and is non-negative, and a missing
`Min`/`Max` yields a `0` extent — but a violating row yields a negative,
unclamped extent. -/
theorem make_bar_fig_whiskers (df : List SalaryRow) (se : Bool) (t : String)
    (r : SalaryRow) :
    (make_bar_fig df se t).err_left = df.map leftWhisker ∧
    (make_bar_fig df se t).err_right = df.map rightWhisker ∧
    (r.min_salary = none ∨ r.average_salary = none → leftWhisker r = 0) ∧
    (r.max_salary = none ∨ r.average_salary = none → rightWhisker r = 0) ∧
    (∀ a m, r.average_salary = some a → r.min_salary = some m → m ≤ a →
      leftWhisker r = max 0 (a - m)) ∧
    (∀ a mx, r.average_salary = some a → r.max_salary = some mx → a ≤ mx →
      rightWhisker r = max 0 (mx - a)) := by
  obtain ⟨d, av, mn, mx⟩ := r
  refine ⟨rfl, rfl, ?_, ?_, ?_, ?_⟩
  · rintro (h | h)
    · simp only at h; subst h; cases av <;> rfl
    · simp only at h; subst h; cases mn <;> rfl
  · rintro (h | h)
    · simp only at h; subst h; cases av <;> rfl
    · simp only at h; subst h; cases mx <;> rfl
  · intro a m ha hm hle
    simp only at ha hm
    subst ha; subst hm
    show a - m = max 0 (a - m)
    rw [max_eq_right (sub_nonneg.mpr hle)]
  · intro a m ha hm hle
    simp only at ha hm
    subst ha; subst hm
    show m - a = max 0 (m - a)
    rw [max_eq_right (sub_nonneg.mpr hle)]

theorem make_bar_fig_whiskers_witness :
    leftWhisker ⟨"X", some 5, some 2, some 9⟩ = max 0 ((5 : ℚ) - 2) ∧
    rightWhisker ⟨"X", some 5, some 2, some 9⟩ = max 0 ((9 : ℚ) - 5) :=
  ⟨(make_bar_fig_whiskers [] true "" _).2.2.2.2.1 5 2 rfl rfl (by norm_num),
   (make_bar_fig_whiskers [] true "" _).2.2.2.2.2 5 9 rfl rfl (by norm_num)⟩

/-- C8.  With no uploaded file, `load_data` parses the embedded default
dataset into exactly the 9 rows whose Department, Average_Salary,
Min_Salary and Max_Salary values are the literal values of §6 of the
specification. -/
theorem load_default_dataset :
    load_data none = specDefaultTable ∧ (load_data none).rows.length = 9 := by
  have h : load_data none =
      ⟨["Department", "Average_Salary", "Min_Salary", "Max_Salary"],
       [[Cell.str "IT", Cell.num (some (mkRat 28560182889 1000000)),
         Cell.num (some (mkRat 1054419 100)), Cell.num (some (mkRat 11517851 100))],
        [Cell.str "Finance", Cell.num (some (mkRat 28055533689 1000000)),
         Cell.num (some (mkRat 898786 100)), Cell.num (some (mkRat 10129441 100))],
        [Cell.str "Logistics/Warehousing", Cell.num (some (mkRat 27574698600 1000000)),
         Cell.num (some (mkRat 902753 100)), Cell.num (some (mkRat 15345158 100))],
        [Cell.str "Store Operations", Cell.num (some (mkRat 27404359873 1000000)),
         Cell.num (some (mkRat 884862 100)), Cell.num (some (mkRat 17787361 100))],
        [Cell.str "Fresh Produce", Cell.num (some (mkRat 26915946969 1000000)),
         Cell.num (some (mkRat 899842 100)), Cell.num (some (mkRat 11047560 100))],
        [Cell.str "Marketing", Cell.num (some (mkRat 26796816800 1000000)),
         Cell.num (some (mkRat 973623 100)), Cell.num (some (mkRat 6592363 100))],
        [Cell.str "HR", Cell.num (some (mkRat 26539921733 1000000)),
         Cell.num (some (mkRat 882346 100)), Cell.num (some (mkRat 5895129 100))],
        [Cell.str "Meat/Fish & Bakery", Cell.num (some (mkRat 26535722133 1000000)),
         Cell.num (some (mkRat 886788 100)), Cell.num (some (mkRat 11645367 100))],
        [Cell.str "Customer Service", Cell.num (some (mkRat 26244393800 1000000)),
         Cell.num (some (mkRat 944999 100)), Cell.num (some (mkRat 5094901 100))]]⟩ := by
    decide
  constructor
  · rw [h]
    unfold specDefaultTable
    norm_num [Rat.mkRat_eq_divInt, Rat.divInt_eq_div]
  · rw [h]
    rfl

/-- C9.  Schema validation (app.py lines 140-143) fails exactly when the
required column set is not a subset of the table's columns; the columns of
a loaded table are the CSV header cells with surrounding whitespace
trimmed (app.py line 40) and nothing else, so matching is strict: the
header `dept, AVG, MIN, MAX` is rejected, while the default dataset's
exact header passes. -/
theorem schema_validation_strict :
    (∀ df : DataFrame, schema_ok df = false ↔ ¬ (∀ c ∈ required_cols, c ∈ df.cols)) ∧
    (∀ text : String, (load_data (some text)).cols =
      (headerCells text).map (fun cs => String.mk (trimChars cs))) ∧
    schema_ok (load_data (some "dept, AVG, MIN, MAX\nIT,1000,500,2000")) = false ∧
    schema_ok (load_data none) = true := by
  refine ⟨?_, ?_, by decide, by decide⟩
  · intro df
    have hA : schema_ok df = true ↔ ∀ c ∈ required_cols, c ∈ df.cols := by
      simp [schema_ok, List.all_eq_true]
    rw [← Bool.not_eq_true]
    exact not_congr hA
  · intro text
    cases h : parseCSVLines text <;> simp [load_data, headerCells, h]

/-- C3 (counterexample).  On a 17-row table whose `Average_Salary` values
are all equal, `df.sort_values` with the default `kind="quicksort"` (numpy
introsort; pandas documents only `mergesort`/`stable` as stable) permutes
the tied rows: the computed indexer is
`[0, 14, 13, 12, 11, 10, 9, 15, 8, 6, 5, 4, 3, 2, 1, 7, 16]`, so the sort
is not stable. -/
theorem sort_not_stable_counterexample :
    sortIndexer tbl17 .avgAsc =
      [0, 14, 13, 12, 11, 10, 9, 15, 8, 6, 5, 4, 3, 2, 1, 7, 16] ∧
    ¬ (sortIndexer tbl17 .avgAsc).Pairwise
        (fun i j => keyEqAt tbl17 .avgAsc i j → i < j) := by
  constructor
  · decide
  · decide

/-- C7 (counterexample).  Sorting the same 17-row all-tied table twice by
the same key does not reproduce the order obtained by sorting once: the
introsort scrambles the ties again. -/
theorem sort_not_idempotent_counterexample :
    sortTable (sortTable tbl17 .avgAsc) .avgAsc ≠ sortTable tbl17 .avgAsc := by
  decide

/-! ## Correctness of the insertion-sort path of the sort model

For at most `SMALL_QUICKSORT + 1 = 16` indices, `npy_aquicksort` never
enters its partitioning loop and is exactly one insertion-sort pass; the
lemmas below show that this pass produces the unique permutation sorted by
key value with ties in index order. -/

section NpSortLemmas

variable {α : Type} [LinearOrder α]

theorem le_of_idxLt {v : Nat → α} {i j : Nat} (h : idxLt v i j) : v i ≤ v j := by
  rcases h with h | ⟨h, _⟩
  · exact le_of_lt h
  · exact le_of_eq h

theorem npInsert_perm (v : Nat → α) (x : Nat) (l : List Nat) :
    (npInsert v x l).Perm (x :: l) := by
  induction l with
  | nil => exact List.Perm.refl _
  | cons y ys ih =>
    by_cases h : v x < v y
    · simp only [npInsert, if_pos h]
      exact List.Perm.refl _
    · simp only [npInsert, if_neg h]
      exact (ih.cons y).trans (List.Perm.swap x y ys)

theorem npInsert_sorted (v : Nat → α) (x : Nat) (l : List Nat)
    (hs : l.Pairwise (idxLt v)) (hx : ∀ y ∈ l, y < x) :
    (npInsert v x l).Pairwise (idxLt v) := by
  induction l with
  | nil => simp [npInsert]
  | cons y ys ih =>
    rw [List.pairwise_cons] at hs
    obtain ⟨hy, hys⟩ := hs
    by_cases h : v x < v y
    · simp only [npInsert, if_pos h]
      refine List.Pairwise.cons ?_ (List.Pairwise.cons hy hys)
      intro z hz
      rcases List.mem_cons.mp hz with rfl | hz'
      · exact Or.inl h
      · exact Or.inl (lt_of_lt_of_le h (le_of_idxLt (hy z hz')))
    · simp only [npInsert, if_neg h]
      refine List.Pairwise.cons ?_
        (ih hys (fun z hz => hx z (List.mem_cons_of_mem y hz)))
      intro z hz
      rcases List.mem_cons.mp ((npInsert_perm v x ys).mem_iff.mp hz) with rfl | hz'
      · rcases lt_or_eq_of_le (not_lt.mp h) with hlt | heq
        · exact Or.inl hlt
        · exact Or.inr ⟨heq, hx y (List.mem_cons_self y ys)⟩
      · exact hy z hz'

theorem npInsSort_go (v : Nat → α) :
    ∀ (l acc : List Nat), acc.Pairwise (idxLt v) →
      (∀ y ∈ acc, ∀ x ∈ l, y < x) → l.Pairwise (· < ·) →
      ((l.foldl (fun s x => npInsert v x s) acc).Pairwise (idxLt v) ∧
       (l.foldl (fun s x => npInsert v x s) acc).Perm (acc ++ l)) := by
  intro l
  induction l with
  | nil =>
    intro acc h1 _ _
    exact ⟨h1, by simp⟩
  | cons x xs ih =>
    intro acc hacc hcross hl
    rw [List.pairwise_cons] at hl
    obtain ⟨hx1, hxs⟩ := hl
    have hxacc : ∀ y ∈ acc, y < x :=
      fun y hy => hcross y hy x (List.mem_cons_self x xs)
    have hacc' : (npInsert v x acc).Pairwise (idxLt v) :=
      npInsert_sorted v x acc hacc hxacc
    have hcross' : ∀ y ∈ npInsert v x acc, ∀ z ∈ xs, y < z := by
      intro y hy z hz
      rcases List.mem_cons.mp ((npInsert_perm v x acc).mem_iff.mp hy) with rfl | hy'
      · exact hx1 z hz
      · exact hcross y hy' z (List.mem_cons_of_mem x hz)
    obtain ⟨hp, hperm⟩ := ih (npInsert v x acc) hacc' hcross' hxs
    refine ⟨hp, ?_⟩
    exact hperm.trans
      (((npInsert_perm v x acc).append_right xs).trans List.perm_middle.symm)

theorem npInsSort_sorted_perm (v : Nat → α) (l : List Nat)
    (hl : l.Pairwise (· < ·)) :
    (npInsSort v l).Pairwise (idxLt v) ∧ (npInsSort v l).Perm l := by
  have h := npInsSort_go v l [] (by simp) (by simp) hl
  simpa [npInsSort] using h

theorem idxLt_asymm (v : Nat → α) {i j : Nat}
    (hij : idxLt v i j) (hji : idxLt v j i) : False := by
  rcases hij with h1 | ⟨h1, h1'⟩ <;> rcases hji with h2 | ⟨h2, h2'⟩
  · exact absurd h2 (not_lt.mpr (le_of_lt h1))
  · exact absurd h2 (ne_of_gt h1)
  · exact absurd h2 (not_lt.mpr (le_of_eq h1))
  · omega

theorem idxLt_sorted_unique (v : Nat → α) {l₁ l₂ : List Nat} (hp : l₁.Perm l₂)
    (h₁ : l₁.Pairwise (idxLt v)) (h₂ : l₂.Pairwise (idxLt v)) : l₁ = l₂ :=
  @List.eq_of_perm_of_sorted _ _
    ⟨fun _ _ hab hba => absurd hba (fun hba => idxLt_asymm v hab hba)⟩
    _ _ hp h₁ h₂

theorem npArgsortQuick_small [Inhabited α] (vals : List α) (h : vals.length ≤ 16) :
    npArgsortQuick vals = npInsSort (vAt vals) (List.range vals.length) := by
  by_cases h0 : vals.length = 0
  · rw [npArgsortQuick, if_pos h0, h0]
    rfl
  · rw [npArgsortQuick, if_neg h0]
    obtain ⟨m, hm⟩ : ∃ m, 4 * vals.length + 8 = m + 1 :=
      ⟨4 * vals.length + 7, by omega⟩
    rw [hm, outerLoop, if_neg (by omega : ¬ 15 < vals.length - 1 - 0)]
    show insertionSeg (vAt vals) (List.range vals.length) 0 (vals.length - 1) =
      npInsSort (vAt vals) (List.range vals.length)
    rw [insertionSeg]
    have h1 : vals.length - 1 + 1 - 0 = vals.length := by omega
    have h2 : vals.length - 1 + 1 = vals.length := by omega
    rw [h1, h2, List.take_zero, List.drop_zero,
      List.take_of_length_le (by simp), List.drop_eq_nil_of_le (by simp)]
    simp

end NpSortLemmas

section NargsortLemmas

theorem getD_map_of_lt {β γ : Type} (l : List β) (f : β → γ) (dβ : β) (dγ : γ)
    {k : Nat} (hk : k < l.length) :
    (l.map f).getD k dγ = f (l.getD k dβ) := by
  rw [List.getD_eq_getElem _ _ (by simpa using hk), List.getElem_map,
    List.getD_eq_getElem _ _ hk]

theorem map_getD_range {β : Type} (l : List β) (d : β) :
    (List.range l.length).map (fun k => l.getD k d) = l := by
  apply List.ext_getElem
  · simp
  · intro i h1 h2
    rw [List.getElem_map, List.getElem_range, List.getD_eq_getElem _ _ h2]

theorem getD_rel_of_pairwise {R : Nat → Nat → Prop} {l : List Nat}
    (h : l.Pairwise R) {k₁ k₂ : Nat} (hk : k₁ < k₂) (h₂ : k₂ < l.length) :
    R (l.getD k₁ 0) (l.getD k₂ 0) := by
  have h₁ : k₁ < l.length := lt_trans hk h₂
  rw [List.getD_eq_getElem _ _ h₁, List.getD_eq_getElem _ _ h₂]
  exact List.pairwise_iff_getElem.mp h k₁ k₂ h₁ h₂ hk

theorem getD_mem_of_lt {l : List Nat} {k : Nat} (h : k < l.length) :
    l.getD k 0 ∈ l := by
  rw [List.getD_eq_getElem _ _ h]
  exact List.getElem_mem h

theorem mem_nonNanIdxOf {α : Type} {keys : List (Option α)} {i : Nat} :
    i ∈ nonNanIdxOf keys ↔ i < keys.length ∧ (keys.getD i none).isSome := by
  simp [nonNanIdxOf, List.mem_filter, List.mem_range]

theorem mem_nanIdxOf {α : Type} {keys : List (Option α)} {i : Nat} :
    i ∈ nanIdxOf keys ↔ i < keys.length ∧ keys.getD i none = none := by
  simp [nanIdxOf, List.mem_filter, List.mem_range, Option.isNone_iff_eq_none]

theorem nonNanIdxOf_pairwise {α : Type} (keys : List (Option α)) :
    (nonNanIdxOf keys).Pairwise (· < ·) :=
  List.Pairwise.sublist (List.filter_sublist _) (List.pairwise_lt_range _)

theorem nanIdxOf_pairwise {α : Type} (keys : List (Option α)) :
    (nanIdxOf keys).Pairwise (· < ·) :=
  List.Pairwise.sublist (List.filter_sublist _) (List.pairwise_lt_range _)

theorem nniOf_length {α : Type} (keys : List (Option α)) (asc : Bool) :
    (nniOf keys asc).length = (nonNanIdxOf keys).length := by
  cases asc <;> simp [nniOf]

theorem mem_nniOf {α : Type} {keys : List (Option α)} {asc : Bool} {i : Nat} :
    i ∈ nniOf keys asc ↔ i ∈ nonNanIdxOf keys := by
  cases asc <;> simp [nniOf]

theorem valsOf_length {α : Type} [Inhabited α] (keys : List (Option α)) (asc : Bool) :
    (valsOf keys asc).length = (nniOf keys asc).length := by
  simp [valsOf]

theorem valsOf_le_16 {α : Type} [Inhabited α] (keys : List (Option α)) (asc : Bool)
    (h16 : keys.length ≤ 16) : (valsOf keys asc).length ≤ 16 := by
  rw [valsOf_length, nniOf_length]
  calc (nonNanIdxOf keys).length ≤ (List.range keys.length).length :=
        List.length_filter_le _ _
    _ = keys.length := List.length_range _
    _ ≤ 16 := h16

theorem vAt_valsOf {α : Type} [Inhabited α] {keys : List (Option α)} {asc : Bool} {k : Nat}
    (hk : k < (nniOf keys asc).length) :
    vAt (valsOf keys asc) k =
      (keys.getD ((nniOf keys asc).getD k 0) none).getD default := by
  unfold vAt valsOf
  rw [getD_map_of_lt (nniOf keys asc) _ 0 default hk]

theorem key_at_nniOf_getD {α : Type} [Inhabited α] {keys : List (Option α)} {asc : Bool} {k : Nat}
    (hk : k < (nniOf keys asc).length) :
    keys.getD ((nniOf keys asc).getD k 0) none =
      some (vAt (valsOf keys asc) k) := by
  have hmem : (nniOf keys asc).getD k 0 ∈ nniOf keys asc := getD_mem_of_lt hk
  have hsome := (mem_nonNanIdxOf.mp (mem_nniOf.mp hmem)).2
  rw [vAt_valsOf hk]
  cases hkey : keys.getD ((nniOf keys asc).getD k 0) none with
  | none => rw [hkey] at hsome; cases hsome
  | some a => simp

theorem nonNan_nan_perm {α : Type} (keys : List (Option α)) :
    (nonNanIdxOf keys ++ nanIdxOf keys).Perm (List.range keys.length) := by
  have hcongr : (List.range keys.length).filter
      (fun i => !(keys.getD i none).isSome) = nanIdxOf keys := by
    apply List.filter_congr
    intro i _
    cases keys.getD i none <;> rfl
  rw [← hcongr, nonNanIdxOf]
  exact List.filter_append_perm _ _

end NargsortLemmas

theorem nargsort_eq {α : Type} [LinearOrder α] [Inhabited α]
    (keys : List (Option α)) (asc : Bool) :
    nargsort keys asc =
      (if asc then
        (npArgsortQuick (valsOf keys asc)).map
          (fun k => (nniOf keys asc).getD k 0)
       else
        ((npArgsortQuick (valsOf keys asc)).map
          (fun k => (nniOf keys asc).getD k 0)).reverse)
      ++ nanIdxOf keys := rfl

theorem nargsort_perm {α : Type} [LinearOrder α] [Inhabited α]
    (keys : List (Option α)) (asc : Bool) (h16 : keys.length ≤ 16) :
    (nargsort keys asc).Perm (List.range keys.length) := by
  have hv16 := valsOf_le_16 keys asc h16
  have hinner := npInsSort_sorted_perm (vAt (valsOf keys asc))
    (List.range (valsOf keys asc).length) (List.pairwise_lt_range _)
  have hmap : ((npArgsortQuick (valsOf keys asc)).map
      (fun k => (nniOf keys asc).getD k 0)).Perm (nniOf keys asc) := by
    rw [npArgsortQuick_small _ hv16]
    refine (hinner.2.map _).trans ?_
    rw [valsOf_length, map_getD_range]
  have hidx : (if asc then
      (npArgsortQuick (valsOf keys asc)).map (fun k => (nniOf keys asc).getD k 0)
     else
      ((npArgsortQuick (valsOf keys asc)).map
        (fun k => (nniOf keys asc).getD k 0)).reverse).Perm (nonNanIdxOf keys) := by
    cases asc
    · simp only [Bool.false_eq_true, if_false]
      refine ((List.reverse_perm _).trans hmap).trans ?_
      simp only [nniOf, Bool.false_eq_true, if_false]
      exact List.reverse_perm _
    · simp only [if_true]
      refine hmap.trans ?_
      simp [nniOf]
  rw [nargsort_eq]
  exact (hidx.append (List.Perm.refl (nanIdxOf keys))).trans (nonNan_nan_perm keys)

theorem nargsort_sorted {α : Type} [LinearOrder α] [Inhabited α]
    (keys : List (Option α)) (asc : Bool) (h16 : keys.length ≤ 16) :
    (nargsort keys asc).Pairwise (pandasLt keys asc) := by
  have hv16 := valsOf_le_16 keys asc h16
  have hinner := npInsSort_sorted_perm (vAt (valsOf keys asc))
    (List.range (valsOf keys asc).length) (List.pairwise_lt_range _)
  have hmem_inner : ∀ k ∈ npInsSort (vAt (valsOf keys asc))
      (List.range (valsOf keys asc).length), k < (nniOf keys asc).length := by
    intro k hk
    have h := hinner.2.mem_iff.mp hk
    rw [List.mem_range, valsOf_length] at h
    exact h
  have hkey : ∀ k ∈ npInsSort (vAt (valsOf keys asc))
      (List.range (valsOf keys asc).length),
      keys.getD ((nniOf keys asc).getD k 0) none =
        some (vAt (valsOf keys asc) k) :=
    fun k hk => key_at_nniOf_getD (hmem_inner k hk)
  have hnan : ∀ b ∈ nanIdxOf keys, keys.getD b none = none :=
    fun b hb => (mem_nanIdxOf.mp hb).2
  rw [nargsort_eq, npArgsortQuick_small _ hv16, List.pairwise_append]
  refine ⟨?_, ?_, ?_⟩
  · cases asc
    · simp only [Bool.false_eq_true, if_false]
      rw [List.pairwise_reverse, List.pairwise_map]
      refine List.Pairwise.imp_of_mem ?_ hinner.1
      intro k₁ k₂ h₁ h₂ hlt
      simp only [pandasLt, hkey k₂ h₂, hkey k₁ h₁]
      rcases hlt with h | ⟨heq, hklt⟩
      · exact Or.inl h
      · refine Or.inr ⟨heq.symm, ?_⟩
        have hdesc : (nniOf keys false).Pairwise (· > ·) := by
          simp only [nniOf, Bool.false_eq_true, if_false]
          exact List.pairwise_reverse.mpr (nonNanIdxOf_pairwise keys)
        exact getD_rel_of_pairwise hdesc hklt (hmem_inner k₂ h₂)
    · simp only [if_true]
      rw [List.pairwise_map]
      refine List.Pairwise.imp_of_mem ?_ hinner.1
      intro k₁ k₂ h₁ h₂ hlt
      simp only [pandasLt, hkey k₁ h₁, hkey k₂ h₂]
      rcases hlt with h | ⟨heq, hklt⟩
      · exact Or.inl h
      · refine Or.inr ⟨heq, ?_⟩
        have hasc : (nniOf keys true).Pairwise (· < ·) := by
          simp only [nniOf, if_true]
          exact nonNanIdxOf_pairwise keys
        exact getD_rel_of_pairwise hasc hklt (hmem_inner k₂ h₂)
  · refine List.Pairwise.imp_of_mem ?_ (nanIdxOf_pairwise keys)
    intro a b ha hb hab
    simp only [pandasLt, hnan a ha, hnan b hb]
    exact hab
  · intro a ha b hb
    have ha' : a ∈ (npInsSort (vAt (valsOf keys asc))
        (List.range (valsOf keys asc).length)).map
        (fun k => (nniOf keys asc).getD k 0) := by
      cases asc <;> simpa using ha
    obtain ⟨k, hk, rfl⟩ := List.mem_map.mp ha'
    simp only [pandasLt, hkey k hk, hnan b hb]

theorem nargsort_stable_small {α : Type} [LinearOrder α] [Inhabited α]
    (keys : List (Option α)) (asc : Bool) (h16 : keys.length ≤ 16) :
    (nargsort keys asc).Pairwise
      (fun i j => keys.getD i none = keys.getD j none → i < j) := by
  refine (nargsort_sorted keys asc h16).imp ?_
  intro i j hlt heq
  simp only [pandasLt] at hlt
  rw [heq] at hlt
  cases hkj : keys.getD j none with
  | none => rw [hkj] at hlt; exact hlt
  | some a =>
    rw [hkj] at hlt
    rcases hlt with h | ⟨_, h⟩
    · cases asc <;> simp at h
    · exact h

theorem pandasLt_asymm {α : Type} [LinearOrder α]
    (keys : List (Option α)) (asc : Bool) {i j : Nat}
    (hij : pandasLt keys asc i j) (hji : pandasLt keys asc j i) : False := by
  simp only [pandasLt] at hij hji
  cases hki : keys.getD i none with
  | none =>
    cases hkj : keys.getD j none with
    | none => rw [hki, hkj] at hij hji; omega
    | some b => rw [hki, hkj] at hij; exact hij
  | some a =>
    cases hkj : keys.getD j none with
    | none => rw [hki, hkj] at hji; exact hji
    | some b =>
      rw [hki, hkj] at hij hji
      cases asc
      · simp only [Bool.false_eq_true, if_false] at hij hji
        rcases hij with h1 | ⟨h1, h1'⟩ <;> rcases hji with h2 | ⟨h2, h2'⟩
        · exact absurd h2 (not_lt.mpr (le_of_lt h1))
        · subst h2; exact lt_irrefl _ h1
        · subst h1; exact lt_irrefl _ h2
        · omega
      · simp only [if_true] at hij hji
        rcases hij with h1 | ⟨h1, h1'⟩ <;> rcases hji with h2 | ⟨h2, h2'⟩
        · exact absurd h2 (not_lt.mpr (le_of_lt h1))
        · subst h2; exact lt_irrefl _ h1
        · subst h1; exact lt_irrefl _ h2
        · omega

theorem pandasLt_sorted_unique {α : Type} [LinearOrder α]
    (keys : List (Option α)) (asc : Bool) {l₁ l₂ : List Nat} (hp : l₁.Perm l₂)
    (h₁ : l₁.Pairwise (pandasLt keys asc)) (h₂ : l₂.Pairwise (pandasLt keys asc)) :
    l₁ = l₂ :=
  @List.eq_of_perm_of_sorted _ _
    ⟨fun _ _ hab hba => absurd hba (fun hba => pandasLt_asymm keys asc hab hba)⟩
    _ _ hp h₁ h₂

theorem nargsort_length {α : Type} [LinearOrder α] [Inhabited α]
    (keys : List (Option α)) (asc : Bool) (h16 : keys.length ≤ 16) :
    (nargsort keys asc).length = keys.length :=
  (nargsort_perm keys asc h16).length_eq.trans (List.length_range _)

theorem mem_nargsort_lt {α : Type} [LinearOrder α] [Inhabited α]
    {keys : List (Option α)} {asc : Bool} (h16 : keys.length ≤ 16) {i : Nat}
    (hi : i ∈ nargsort keys asc) : i < keys.length := by
  have h := (nargsort_perm keys asc h16).mem_iff.mp hi
  rwa [List.mem_range] at h

theorem range_sorted_pandasLt {α : Type} [LinearOrder α] [Inhabited α]
    (keys : List (Option α)) (asc : Bool) (h16 : keys.length ≤ 16) :
    (List.range keys.length).Pairwise
      (pandasLt ((nargsort keys asc).map (fun i => keys.getD i none)) asc) := by
  have hσ : (nargsort keys asc).Pairwise (pandasLt keys asc) :=
    nargsort_sorted keys asc h16
  have hlen : (nargsort keys asc).length = keys.length :=
    nargsort_length keys asc h16
  rw [List.pairwise_iff_getElem]
  intro i j hi hj hij
  rw [List.length_range] at hi hj
  rw [List.getElem_range, List.getElem_range]
  have hgi : ((nargsort keys asc).map (fun i => keys.getD i none)).getD i none =
      keys.getD ((nargsort keys asc).getD i 0) none :=
    getD_map_of_lt _ _ 0 none (hlen ▸ hi)
  have hgj : ((nargsort keys asc).map (fun i => keys.getD i none)).getD j none =
      keys.getD ((nargsort keys asc).getD j 0) none :=
    getD_map_of_lt _ _ 0 none (hlen ▸ hj)
  have hpair : pandasLt keys asc ((nargsort keys asc).getD i 0)
      ((nargsort keys asc).getD j 0) :=
    getD_rel_of_pairwise hσ hij (hlen ▸ hj)
  simp only [pandasLt] at hpair ⊢
  rw [hgi, hgj]
  cases hki : keys.getD ((nargsort keys asc).getD i 0) none with
  | none =>
    cases hkj : keys.getD ((nargsort keys asc).getD j 0) none with
    | none => exact hij
    | some b => rw [hki, hkj] at hpair; exact absurd hpair (fun h => h)
  | some a =>
    cases hkj : keys.getD ((nargsort keys asc).getD j 0) none with
    | none => trivial
    | some b =>
      rw [hki, hkj] at hpair
      rcases hpair with h | ⟨h, _⟩
      · exact Or.inl h
      · exact Or.inr ⟨h, hij⟩

theorem nargsort_idem_small {α : Type} [LinearOrder α] [Inhabited α]
    (keys : List (Option α)) (asc : Bool) (h16 : keys.length ≤ 16) :
    nargsort ((nargsort keys asc).map (fun i => keys.getD i none)) asc =
      List.range keys.length := by
  have hlen' : ((nargsort keys asc).map (fun i => keys.getD i none)).length =
      keys.length := by
    rw [List.length_map, nargsort_length keys asc h16]
  have h16' : ((nargsort keys asc).map (fun i => keys.getD i none)).length ≤ 16 := by
    rw [hlen']; exact h16
  apply pandasLt_sorted_unique
    ((nargsort keys asc).map (fun i => keys.getD i none)) asc
  · refine (nargsort_perm _ asc h16').trans ?_
    rw [hlen']
  · exact nargsort_sorted _ asc h16'
  · rw [← hlen']
    exact hlen'.symm ▸ range_sorted_pandasLt keys asc h16

theorem applyIndexer_range (df : List SalaryRow) :
    applyIndexer df (List.range df.length) = df :=
  map_getD_range df default

theorem applyIndexer_nargsort_idem {α : Type} [LinearOrder α] [Inhabited α]
    (df : List SalaryRow) (h16 : df.length ≤ 16) (f : SalaryRow → Option α)
    (asc : Bool) :
    applyIndexer (applyIndexer df (nargsort (df.map f) asc))
        (nargsort ((applyIndexer df (nargsort (df.map f) asc)).map f) asc) =
      applyIndexer df (nargsort (df.map f) asc) := by
  have h16k : (df.map f).length ≤ 16 := by rw [List.length_map]; exact h16
  have hkeys' : (applyIndexer df (nargsort (df.map f) asc)).map f =
      (nargsort (df.map f) asc).map (fun i => (df.map f).getD i none) := by
    unfold applyIndexer
    rw [List.map_map]
    apply List.map_congr_left
    intro i hi
    have hilt : i < df.length := by
      have h := mem_nargsort_lt h16k hi
      rwa [List.length_map] at h
    show f (df.getD i default) = (df.map f).getD i none
    rw [getD_map_of_lt df f default none hilt]
  rw [hkeys', nargsort_idem_small (df.map f) asc h16k]
  have hXlen : (applyIndexer df (nargsort (df.map f) asc)).length = df.length := by
    unfold applyIndexer
    rw [List.length_map, nargsort_length (df.map f) asc h16k, List.length_map]
  have h2 : (df.map f).length =
      (applyIndexer df (nargsort (df.map f) asc)).length := by
    rw [hXlen, List.length_map]
  rw [h2]
  exact applyIndexer_range _

set_option maxHeartbeats 1000000 in
/-- C3 (amended).  For tables of at most 16 rows — where numpy's introsort
reduces to its stable insertion-sort base case — every sort key of the
dispatch is stable: rows with equal sort-key values keep their original
relative order in the computed indexer.  (Beyond 16 rows the partitioning
scheme may reorder ties, as the counterexample shows.) -/
theorem sort_stable_small (df : List SalaryRow) (h16 : df.length ≤ 16)
    (c : SortChoice) :
    (sortIndexer df c).Pairwise (fun i j => keyEqAt df c i j → i < j) := by
  cases c with
  | avgDesc =>
    have h16k : (df.map (·.average_salary)).length ≤ 16 := by
      rw [List.length_map]; exact h16
    show (nargsort (df.map (·.average_salary)) false).Pairwise _
    refine List.Pairwise.imp_of_mem ?_
      (nargsort_stable_small (df.map (·.average_salary)) false h16k)
    intro i j hi hj himp hkey
    apply himp
    have hilt : i < df.length := by
      have h := mem_nargsort_lt h16k hi
      rwa [List.length_map] at h
    have hjlt : j < df.length := by
      have h := mem_nargsort_lt h16k hj
      rwa [List.length_map] at h
    rw [getD_map_of_lt df _ default none hilt,
      getD_map_of_lt df _ default none hjlt]
    exact hkey
  | avgAsc =>
    have h16k : (df.map (·.average_salary)).length ≤ 16 := by
      rw [List.length_map]; exact h16
    show (nargsort (df.map (·.average_salary)) true).Pairwise _
    refine List.Pairwise.imp_of_mem ?_
      (nargsort_stable_small (df.map (·.average_salary)) true h16k)
    intro i j hi hj himp hkey
    apply himp
    have hilt : i < df.length := by
      have h := mem_nargsort_lt h16k hi
      rwa [List.length_map] at h
    have hjlt : j < df.length := by
      have h := mem_nargsort_lt h16k hj
      rwa [List.length_map] at h
    rw [getD_map_of_lt df _ default none hilt,
      getD_map_of_lt df _ default none hjlt]
    exact hkey
  | deptAsc =>
    have h16k : (df.map (fun r => some r.department)).length ≤ 16 := by
      rw [List.length_map]; exact h16
    show (nargsort (df.map (fun r => some r.department)) true).Pairwise _
    refine List.Pairwise.imp_of_mem ?_
      (nargsort_stable_small (df.map (fun r => some r.department)) true h16k)
    intro i j hi hj himp hkey
    apply himp
    have hilt : i < df.length := by
      have h := mem_nargsort_lt h16k hi
      rwa [List.length_map] at h
    have hjlt : j < df.length := by
      have h := mem_nargsort_lt h16k hj
      rwa [List.length_map] at h
    rw [getD_map_of_lt df _ default none hilt,
      getD_map_of_lt df _ default none hjlt]
    exact congrArg some hkey

theorem sort_stable_small_witness :
    tblW3.length ≤ 16 ∧
    (sortIndexer tblW3 .avgAsc).Pairwise
      (fun i j => keyEqAt tblW3 .avgAsc i j → i < j) :=
  ⟨by decide, sort_stable_small tblW3 (by decide) .avgAsc⟩

set_option maxHeartbeats 1000000 in
/-- C7 (amended).  For tables of at most 16 rows — the stable
insertion-sort regime of numpy's introsort — applying the same sort twice
yields exactly the same row order as applying it once, for every sort key.
(Beyond 16 rows the counterexample shows idempotence fails.) -/
theorem sort_idempotent_small (df : List SalaryRow) (h16 : df.length ≤ 16)
    (c : SortChoice) :
    sortTable (sortTable df c) c = sortTable df c := by
  cases c with
  | avgDesc =>
    show applyIndexer (applyIndexer df (nargsort (df.map (·.average_salary)) false))
        (nargsort ((applyIndexer df
          (nargsort (df.map (·.average_salary)) false)).map (·.average_salary)) false) =
      applyIndexer df (nargsort (df.map (·.average_salary)) false)
    exact applyIndexer_nargsort_idem df h16 (·.average_salary) false
  | avgAsc =>
    show applyIndexer (applyIndexer df (nargsort (df.map (·.average_salary)) true))
        (nargsort ((applyIndexer df
          (nargsort (df.map (·.average_salary)) true)).map (·.average_salary)) true) =
      applyIndexer df (nargsort (df.map (·.average_salary)) true)
    exact applyIndexer_nargsort_idem df h16 (·.average_salary) true
  | deptAsc =>
    show applyIndexer (applyIndexer df
          (nargsort (df.map (fun r => some r.department)) true))
        (nargsort ((applyIndexer df
          (nargsort (df.map (fun r => some r.department)) true)).map
            (fun r => some r.department)) true) =
      applyIndexer df (nargsort (df.map (fun r => some r.department)) true)
    exact applyIndexer_nargsort_idem df h16 (fun r => some r.department) true

theorem sort_idempotent_small_witness :
    tblW7.length ≤ 16 ∧
    sortTable (sortTable tblW7 .avgDesc) .avgDesc = sortTable tblW7 .avgDesc :=
  ⟨by decide, sort_idempotent_small tblW7 (by decide) .avgDesc⟩
